import Mathlib

/-!
Shallow embedding of the tab-naming core of `zellij-namey`.

Rust strings are modelled as Lean `String`; `s.chars()` (an iterator of
Unicode codepoints) corresponds to `s.data : List Char`, so every length,
`take`, `skip` below counts codepoints, never bytes.  Byte vectors
(`Vec<u8>`) are modelled as `List Nat` with each entry a byte value.
`BTreeMap<String, String>` is modelled as an association list queried with
`List.lookup` (the maps the plugin builds have distinct keys).
-/

namespace Namey

/-! ### Rust primitives used by the sources -/

/-- Rust `char::is_whitespace`: the Unicode `White_Space` property. -/
def rustIsWhitespace (c : Char) : Bool :=
  c.toNat = 0x09 ∨ c.toNat = 0x0A ∨ c.toNat = 0x0B ∨ c.toNat = 0x0C ∨
  c.toNat = 0x0D ∨ c.toNat = 0x20 ∨ c.toNat = 0x85 ∨ c.toNat = 0xA0 ∨
  c.toNat = 0x1680 ∨ (0x2000 ≤ c.toNat ∧ c.toNat ≤ 0x200A) ∨
  c.toNat = 0x2028 ∨ c.toNat = 0x2029 ∨ c.toNat = 0x202F ∨
  c.toNat = 0x205F ∨ c.toNat = 0x3000

/-- Rust `str::trim`: drop leading and trailing whitespace codepoints. -/
def rustTrim (cs : List Char) : List Char :=
  ((cs.dropWhile rustIsWhitespace).reverse.dropWhile rustIsWhitespace).reverse

/-- Rust `usize::from_str` as used by `s.parse::<usize>()`: an optional
leading `+`, then one or more ASCII digits.  (Rust additionally fails on
machine-width overflow; no claim exercises values of that size.) -/
def parseUsize (s : String) : Option Nat :=
  match s.data with
  | [] => none
  | c :: rest =>
    let digits := if c = '+' then rest else c :: rest
    if digits ≠ [] ∧ digits.all fun d => '0' ≤ d ∧ d ≤ '9' then
      some (digits.foldl (fun acc d => acc * 10 + (d.toNat - 48)) 0)
    else
      none

/-! ### `src/formatter.rs` -/

/-- `FormatterConfig` (src/formatter.rs). -/
structure FormatterConfig where
  folder_max_len : Nat
  folder_prefix_len : Nat
  folder_suffix_len : Nat
  branch_max_len : Nat
  branch_prefix_len : Nat
  branch_suffix_len : Nat
  separator : String
  show_branch : Bool
deriving DecidableEq, Repr

/-- `impl Default for FormatterConfig` (src/formatter.rs). -/
def FormatterConfig.default : FormatterConfig :=
  { folder_max_len := 10
    folder_prefix_len := 5
    folder_suffix_len := 4
    branch_max_len := 5
    branch_prefix_len := 1
    branch_suffix_len := 4
    separator := ":"
    show_branch := true }

/-- `FormatterConfig::from_config` (src/formatter.rs): start from the
defaults and overwrite each field whose key is present and parses;
`show_branch` becomes `v != "false"` for a present value `v`.  The Rust
function mutates a `Self::default()` with eight independent `if let`
blocks, each writing a distinct field, so it is rendered field-wise. -/
def from_config (config : List (String × String)) : FormatterConfig :=
  { folder_max_len :=
      match (config.lookup "folder_max_len").bind parseUsize with
      | some v => v
      | none => FormatterConfig.default.folder_max_len
    folder_prefix_len :=
      match (config.lookup "folder_prefix_len").bind parseUsize with
      | some v => v
      | none => FormatterConfig.default.folder_prefix_len
    folder_suffix_len :=
      match (config.lookup "folder_suffix_len").bind parseUsize with
      | some v => v
      | none => FormatterConfig.default.folder_suffix_len
    branch_max_len :=
      match (config.lookup "branch_max_len").bind parseUsize with
      | some v => v
      | none => FormatterConfig.default.branch_max_len
    branch_prefix_len :=
      match (config.lookup "branch_prefix_len").bind parseUsize with
      | some v => v
      | none => FormatterConfig.default.branch_prefix_len
    branch_suffix_len :=
      match (config.lookup "branch_suffix_len").bind parseUsize with
      | some v => v
      | none => FormatterConfig.default.branch_suffix_len
    separator :=
      match config.lookup "separator" with
      | some v => v
      | none => FormatterConfig.default.separator
    show_branch :=
      match config.lookup "show_branch" with
      | some v => v != "false"
      | none => FormatterConfig.default.show_branch }

/-- The single ellipsis codepoint `'…'` used by `truncate`. -/
def ellipsis : Char := '…'

/-- `truncate` (src/formatter.rs): keep the whole string when it fits,
else first `max_len` codepoints when no prefix/suffix is configured or the
prefix+ellipsis+suffix shape does not fit, else
prefix ++ ellipsis ++ suffix. -/
def truncate (s : String) (max_len prefix_len suffix_len : Nat) : String :=
  if s.data.length ≤ max_len then
    s
  else if prefix_len = 0 ∧ suffix_len = 0 then
    String.mk (s.data.take max_len)
  else if prefix_len + 1 + suffix_len > max_len ∨ prefix_len + suffix_len ≥ s.data.length then
    String.mk (s.data.take max_len)
  else
    String.mk (s.data.take prefix_len ++ ellipsis :: s.data.drop (s.data.length - suffix_len))

/-- `format_tab_name` (src/formatter.rs). -/
def format_tab_name (folder : String) (branch : Option String) (config : FormatterConfig) :
    String :=
  let folder_display :=
    truncate folder config.folder_max_len config.folder_prefix_len config.folder_suffix_len
  match branch, config.show_branch with
  | some b, true =>
    let branch_display :=
      truncate b config.branch_max_len config.branch_prefix_len config.branch_suffix_len
    folder_display ++ config.separator ++ branch_display
  | _, _ => folder_display

/-! ### `src/main.rs`: title parsing -/

/-- Suffix of `cs` strictly after the last occurrence of `pat`, when `pat`
occurs in `cs`; models Rust `str::rfind` followed by slicing just past the
match (the patterns used, `": "` and `":"`, are ASCII, so byte and
codepoint positions agree). -/
def afterLast (pat : List Char) : List Char → Option (List Char)
  | [] => none
  | c :: rest =>
    match afterLast pat rest with
    | some s => some s
    | none =>
      if pat.isPrefixOf (c :: rest) then some ((c :: rest).drop pat.length) else none

/-- `remainder.starts_with('/') || remainder.starts_with('~')`. -/
def startsWithPath (cs : List Char) : Bool :=
  match cs with
  | [] => false
  | c :: _ => c = '/' ∨ c = '~'

/-- `extract_cwd_from_title` (src/main.rs): trim; empty gives `None`;
then try the `": "` rule, the whole-title rule and the `":"` rule with
early return, mirroring the Rust control flow. -/
def extract_cwd_from_title (title : String) : Option String :=
  let t := rustTrim title.data
  if t = [] then none
  else
    match afterLast [':', ' '] t with
    | some rest =>
      if startsWithPath (rustTrim rest) then some (String.mk (rustTrim rest))
      else if startsWithPath t then some (String.mk t)
      else
        match afterLast [':'] t with
        | some rest2 =>
          if startsWithPath (rustTrim rest2) then some (String.mk (rustTrim rest2)) else none
        | none => none
    | none =>
      if startsWithPath t then some (String.mk t)
      else
        match afterLast [':'] t with
        | some rest2 =>
          if startsWithPath (rustTrim rest2) then some (String.mk (rustTrim rest2)) else none
        | none => none

/-! ### `String::from_utf8_lossy`

A faithful byte-level model of Rust's lossy UTF-8 decoding: well-formed
sequences decode to their scalar value, and each maximal invalid subpart
is replaced by one U+FFFD replacement character. -/

/-- The replacement character U+FFFD. -/
def replacementChar : Char := Char.ofNat 0xFFFD

/-- A UTF-8 continuation byte. -/
def isCont (b : Nat) : Bool := 0x80 ≤ b ∧ b ≤ 0xBF

/-- Decode one scalar starting at byte `b` with lookahead `rest`; returns
the decoded character (or U+FFFD) and how many bytes of `rest` were
consumed in addition to `b`. -/
def utf8Step (b : Nat) (rest : List Nat) : Char × Nat :=
  if b ≤ 0x7F then (Char.ofNat b, 0)
  else if 0xC2 ≤ b ∧ b ≤ 0xDF then
    match rest with
    | b1 :: _ =>
      if isCont b1 then (Char.ofNat ((b - 0xC0) * 64 + (b1 - 0x80)), 1)
      else (replacementChar, 0)
    | [] => (replacementChar, 0)
  else if (0xE0 ≤ b ∧ b ≤ 0xEF) then
    match rest with
    | b1 :: rest1 =>
      if (b = 0xE0 ∧ 0xA0 ≤ b1 ∧ b1 ≤ 0xBF) ∨
         (0xE1 ≤ b ∧ b ≤ 0xEC ∧ isCont b1) ∨
         (b = 0xED ∧ 0x80 ≤ b1 ∧ b1 ≤ 0x9F) ∨
         (0xEE ≤ b ∧ b ≤ 0xEF ∧ isCont b1) then
        match rest1 with
        | b2 :: _ =>
          if isCont b2 then
            (Char.ofNat ((b - 0xE0) * 4096 + (b1 - 0x80) * 64 + (b2 - 0x80)), 2)
          else (replacementChar, 1)
        | [] => (replacementChar, 1)
      else (replacementChar, 0)
    | [] => (replacementChar, 0)
  else if (0xF0 ≤ b ∧ b ≤ 0xF4) then
    match rest with
    | b1 :: rest1 =>
      if (b = 0xF0 ∧ 0x90 ≤ b1 ∧ b1 ≤ 0xBF) ∨
         (0xF1 ≤ b ∧ b ≤ 0xF3 ∧ isCont b1) ∨
         (b = 0xF4 ∧ 0x80 ≤ b1 ∧ b1 ≤ 0x8F) then
        match rest1 with
        | b2 :: rest2 =>
          if isCont b2 then
            match rest2 with
            | b3 :: _ =>
              if isCont b3 then
                (Char.ofNat
                  ((b - 0xF0) * 262144 + (b1 - 0x80) * 4096 + (b2 - 0x80) * 64 + (b3 - 0x80)), 3)
              else (replacementChar, 2)
            | [] => (replacementChar, 2)
          else (replacementChar, 1)
        | [] => (replacementChar, 1)
      else (replacementChar, 0)
    | [] => (replacementChar, 0)
  else (replacementChar, 0)

/-- Decoding loop; the fuel starts at the byte count and suffices because
every step consumes at least one byte. -/
def utf8LossyGo : Nat → List Nat → List Char
  | 0, _ => []
  | _, [] => []
  | fuel + 1, b :: rest =>
    let step := utf8Step b rest
    step.1 :: utf8LossyGo fuel (rest.drop step.2)

/-- `String::from_utf8_lossy` on a byte vector. -/
def utf8Lossy (bytes : List Nat) : List Char :=
  utf8LossyGo bytes.length bytes

/-! ### `src/main.rs`: branch parsing and command correlation -/

/-- `parse_git_branch` (src/main.rs): lossily decode, trim, and return
`None` exactly for an empty trimmed result. -/
def parse_git_branch (stdout : List Nat) : Option String :=
  let output := utf8Lossy stdout
  let branch := rustTrim output
  if branch = [] then none else some (String.mk branch)

/-- `is_our_command` (src/main.rs): the correlation payload carries
`source = "namey"`. -/
def is_our_command (context : List (String × String)) : Bool :=
  context.lookup "source" == some "namey"

/-- `build_command_context` (src/main.rs). -/
def build_command_context (path : String) : List (String × String) :=
  [("path", path), ("source", "namey")]

/-! ### `src/context.rs` -/

/-- `PaneContext` (src/context.rs). -/
structure PaneContext where
  cwd : String
  branch : Option String
deriving DecidableEq, Repr

/-- `std::path::Path::file_name` on Unix paths: split on `/`, discard
empty and `"."` segments (the components iterator normalises them away);
the last remaining segment is the file name unless it is `".."` (or there
is none). -/
def splitSlash : List Char → List (List Char)
  | [] => [[]]
  | c :: rest =>
    match splitSlash rest with
    | [] => [[]]
    | s :: ss => if c = '/' then [] :: s :: ss else (c :: s) :: ss

/-- `Path::new(p).file_name()` for a UTF-8 path `p` (`.to_str()` always
succeeds on a path built from a Rust `String`, so it is not modelled). -/
def fileName (p : String) : Option String :=
  let segs := (splitSlash p.data).filter fun seg => seg ≠ [] ∧ seg ≠ ['.']
  match segs.getLast? with
  | none => none
  | some seg => if seg = ['.', '.'] then none else some (String.mk seg)

/-- `PaneContext::folder_name` (src/context.rs): the last path component
of `cwd`, or the whole `cwd` when there is none. -/
def PaneContext.folder_name (ctx : PaneContext) : String :=
  match fileName ctx.cwd with
  | some nm => nm
  | none => ctx.cwd

/-! ### `src/main.rs`: session state and the command-result handler -/

/-- `State` (src/main.rs). -/
structure State where
  config : FormatterConfig
  current_cwd : Option String
  current_tab_index : Nat
  current_tab_name : String
deriving DecidableEq, Repr

/-- The branch value `handle_command_result` computes from a command
result: `parse_git_branch` of stdout when the exit code is `Some(0)`,
`None` otherwise. -/
def result_branch (exit_code : Option Int) (stdout : List Nat) : Option String :=
  if exit_code = some 0 then parse_git_branch stdout else none

/-- `State::handle_command_result` (src/main.rs) as a pure step: returns
the state after the call (the function never mutates `self`) together
with the `rename_tab(index as u32, name)` call it issues, if any. -/
def handle_command_result (s : State) (exit_code : Option Int) (stdout : List Nat)
    (context : List (String × String)) : State × Option (Nat × String) :=
  if is_our_command context then
    match context.lookup "path" with
    | none => (s, none)
    | some path =>
      let ctx : PaneContext := { cwd := path, branch := result_branch exit_code stdout }
      let new_name := format_tab_name ctx.folder_name ctx.branch s.config
      if new_name ≠ s.current_tab_name then
        (s, some (s.current_tab_index % 4294967296, new_name))
      else (s, none)
  else (s, none)

/-! ### Spec-side rendering of the title-extraction contract (§4.4)

A second definition of the extractor, following the spec's wording as a
priority list of three independent rules with first match winning, to be
compared with `extract_cwd_from_title` above. -/

/-- Spec rule 2: everything after the last `": "`, trimmed, if it starts
with `/` or `~`. -/
def ruleColonSpace (t : List Char) : Option String :=
  match afterLast [':', ' '] t with
  | some rest =>
    if startsWithPath (rustTrim rest) then some (String.mk (rustTrim rest)) else none
  | none => none

/-- Spec rule 3: the whole trimmed title if it starts with `/` or `~`. -/
def ruleWholeTitle (t : List Char) : Option String :=
  if startsWithPath t then some (String.mk t) else none

/-- Spec rule 4: everything after the last `:`, trimmed, if it starts
with `/` or `~`. -/
def ruleColon (t : List Char) : Option String :=
  match afterLast [':'] t with
  | some rest =>
    if startsWithPath (rustTrim rest) then some (String.mk (rustTrim rest)) else none
  | none => none

/-- The extractor as the spec words it: trim, reject empty, then the
three rules in priority order with first match winning. -/
def extractCwdSpec (title : String) : Option String :=
  let t := rustTrim title.data
  if t = [] then none
  else (ruleColonSpace t).orElse fun _ => (ruleWholeTitle t).orElse fun _ => ruleColon t

/-! ### Helper lemmas -/

/-- The no-op branch of `truncate`: a string that fits is unchanged. -/
lemma truncate_of_fits (s : String) (m p q : Nat) (h : s.data.length ≤ m) :
    truncate s m p q = s := by
  unfold truncate
  rw [if_pos h]

/-- Every branch of `truncate` emits at most `m` codepoints. -/
lemma truncate_len_le (s : String) (m p q : Nat) : (truncate s m p q).data.length ≤ m := by
  unfold truncate
  split
  · next h => exact h
  · next h =>
    push_neg at h
    split
    · show (s.data.take m).length ≤ m
      simp only [List.length_take]
      omega
    · split
      · show (s.data.take m).length ≤ m
        simp only [List.length_take]
        omega
      · next h2 =>
        push_neg at h2
        show (s.data.take p ++ ellipsis :: s.data.drop (s.data.length - q)).length ≤ m
        simp only [List.length_append, List.length_take, List.length_cons, List.length_drop]
        omega

/-- Projection of `from_config` at `show_branch`: only the `show_branch`
key influences the flag. -/
lemma from_config_show_branch (c : List (String × String)) :
    (from_config c).show_branch =
      (match c.lookup "show_branch" with
       | some v => v != "false"
       | none => true) := by
  simp only [from_config]
  cases c.lookup "show_branch" <;> rfl

/-! ### Concrete inputs used by the claim theorems -/

/-- A session currently tracking path `/a`, with an empty applied name. -/
def staleState : State :=
  { config := FormatterConfig.default
    current_cwd := some "/a"
    current_tab_index := 0
    current_tab_name := "" }

/-- A correlation payload from this system, tagged with path `/b`. -/
def staleContext : List (String × String) := [("path", "/b"), ("source", "namey")]

/-- The bytes of `"main\n"`. -/
def mainStdout : List Nat := [109, 97, 105, 110, 10]

/-! ### Claim theorems -/

/-- Claim C5: whenever the codepoint count of `s` is at most `max_len`,
`truncate` returns `s` unchanged, including for the empty string. -/
theorem truncate_identity (s : String) (max_len prefix_len suffix_len : Nat)
    (h : s.data.length ≤ max_len) :
    truncate s max_len prefix_len suffix_len = s :=
  truncate_of_fits s max_len prefix_len suffix_len h

/-- Witness for C5 at `"hello"` and at the empty string. -/
theorem truncate_identity_witness :
    ("hello" : String).data.length ≤ 10 ∧ truncate "hello" 10 5 4 = "hello" ∧
    ("" : String).data.length ≤ 10 ∧ truncate "" 10 5 4 = "" :=
  ⟨by decide, truncate_identity "hello" 10 5 4 (by decide), by decide,
    truncate_identity "" 10 5 4 (by decide)⟩

/-- Claim C10: every branch of `truncate` emits at most `max_len`
codepoints. -/
theorem truncate_length_bound (s : String) (max_len prefix_len suffix_len : Nat) :
    (truncate s max_len prefix_len suffix_len).data.length ≤ max_len :=
  truncate_len_le s max_len prefix_len suffix_len

/-- Claim C6: `truncate` is idempotent at fixed parameters. -/
theorem truncate_idempotent (s : String) (max_len prefix_len suffix_len : Nat) :
    truncate (truncate s max_len prefix_len suffix_len) max_len prefix_len suffix_len =
      truncate s max_len prefix_len suffix_len :=
  truncate_of_fits _ max_len prefix_len suffix_len
    (truncate_len_le s max_len prefix_len suffix_len)

/-- Claim C2: on a string longer than `max_len`, `truncate` takes the
first `max_len` codepoints when no prefix/suffix is configured or the
prefix+ellipsis+suffix shape does not fit, and otherwise the first
`prefix_len` codepoints, one ellipsis, and the last `suffix_len`
codepoints; in particular `truncate "helloworld!" 10 5 4 = "hello…rld!"`. -/
theorem truncate_overflow_spec (s : String) (m p q : Nat) (h : m < s.data.length) :
    (p = 0 ∧ q = 0 → truncate s m p q = String.mk (s.data.take m)) ∧
    (¬(p = 0 ∧ q = 0) → p + 1 + q > m ∨ p + q ≥ s.data.length →
      truncate s m p q = String.mk (s.data.take m)) ∧
    (¬(p = 0 ∧ q = 0) → p + 1 + q ≤ m → p + q < s.data.length →
      truncate s m p q =
        String.mk (s.data.take p ++ ellipsis :: s.data.drop (s.data.length - q))) ∧
    truncate "helloworld!" 10 5 4 = "hello…rld!" := by
  refine ⟨?_, ?_, ?_, by decide⟩
  · intro hpq
    unfold truncate
    rw [if_neg (by omega), if_pos hpq]
  · intro hpq hcond
    unfold truncate
    rw [if_neg (by omega), if_neg hpq, if_pos hcond]
  · intro hpq h1 h2
    unfold truncate
    rw [if_neg (by omega), if_neg hpq, if_neg (by omega)]

/-- Witness for C2 at `"helloworld!" 10 5 4`, landing in the
prefix+ellipsis+suffix branch. -/
theorem truncate_overflow_spec_witness :
    10 < ("helloworld!" : String).data.length ∧
    truncate "helloworld!" 10 5 4 =
      String.mk (("helloworld!" : String).data.take 5 ++ ellipsis ::
        ("helloworld!" : String).data.drop (("helloworld!" : String).data.length - 4)) :=
  ⟨by decide, (truncate_overflow_spec "helloworld!" 10 5 4 (by decide)).2.2.1
    (by decide) (by decide) (by decide)⟩

/-- Claim C4: `format_tab_name` concatenates the truncated folder, the
separator and the truncated branch exactly when `show_branch` holds and a
branch is present (even an empty one), and returns the truncated folder
alone otherwise; the default-config example renders `"my_lo…name:featu"`. -/
theorem format_tab_name_spec (folder : String) (branch : Option String)
    (config : FormatterConfig) :
    (∀ b, branch = some b → config.show_branch = true →
      format_tab_name folder branch config =
        truncate folder config.folder_max_len config.folder_prefix_len config.folder_suffix_len
          ++ config.separator
          ++ truncate b config.branch_max_len config.branch_prefix_len
              config.branch_suffix_len) ∧
    (branch = none ∨ config.show_branch = false →
      format_tab_name folder branch config =
        truncate folder config.folder_max_len config.folder_prefix_len
          config.folder_suffix_len) ∧
    format_tab_name "my_long_project_name" (some "feature-branch-name")
        FormatterConfig.default =
      "my_lo…name:featu" := by
  refine ⟨?_, ?_, by decide⟩
  · rintro b rfl hsb
    simp [format_tab_name, hsb]
  · rintro (rfl | hsb)
    · simp [format_tab_name]
    · cases branch <;> simp [format_tab_name, hsb]

/-- Witness for C4: an empty-string branch still counts as present, and a
missing branch yields the folder display alone. -/
theorem format_tab_name_spec_witness :
    format_tab_name "src" (some "") FormatterConfig.default =
      truncate "src" FormatterConfig.default.folder_max_len
          FormatterConfig.default.folder_prefix_len FormatterConfig.default.folder_suffix_len
        ++ FormatterConfig.default.separator
        ++ truncate "" FormatterConfig.default.branch_max_len
            FormatterConfig.default.branch_prefix_len
            FormatterConfig.default.branch_suffix_len ∧
    format_tab_name "myproject" none FormatterConfig.default =
      truncate "myproject" FormatterConfig.default.folder_max_len
        FormatterConfig.default.folder_prefix_len FormatterConfig.default.folder_suffix_len :=
  ⟨(format_tab_name_spec "src" (some "") FormatterConfig.default).1 "" rfl rfl,
    (format_tab_name_spec "myproject" none FormatterConfig.default).2.1 (Or.inl rfl)⟩

/-- Claim C7: the loaded `show_branch` flag is `false` exactly when the
option map holds the key `"show_branch"` with value exactly `"false"`;
`"0"`, `"no"` and absence all give `true`. -/
theorem show_branch_false_iff :
    (∀ config : List (String × String),
      ((from_config config).show_branch = false ↔
        config.lookup "show_branch" = some "false")) ∧
    (from_config [("show_branch", "0")]).show_branch = true ∧
    (from_config [("show_branch", "no")]).show_branch = true ∧
    (from_config []).show_branch = true := by
  refine ⟨?_, by decide, by decide, by decide⟩
  intro c
  rw [from_config_show_branch]
  cases c.lookup "show_branch" with
  | none => simp
  | some v => by_cases hv : v = "false" <;> simp [hv]

/-- Claim C8: `parse_git_branch` lossily decodes, trims, and returns
`none` exactly for an empty trimmed text; upstream, a non-zero or absent
exit code yields no branch; `""`/whitespace bytes give `none` and
`"main\n"` gives `"main"`. -/
theorem parse_git_branch_spec :
    (∀ stdout : List Nat,
      parse_git_branch stdout =
        if rustTrim (utf8Lossy stdout) = [] then none
        else some (String.mk (rustTrim (utf8Lossy stdout)))) ∧
    (∀ (exit_code : Option Int) (stdout : List Nat), exit_code ≠ some 0 →
      result_branch exit_code stdout = none) ∧
    parse_git_branch [] = none ∧
    parse_git_branch [32, 10, 9] = none ∧
    parse_git_branch mainStdout = some "main" := by
  refine ⟨fun _ => rfl, ?_, by decide, by decide, by decide⟩
  intro e out h
  simp only [result_branch]
  rw [if_neg h]

/-- Witness for C8: a failing exit code discards a perfectly good
`"main\n"` output. -/
theorem parse_git_branch_spec_witness :
    (some 1 : Option Int) ≠ some 0 ∧ result_branch (some 1) mainStdout = none :=
  ⟨by decide, parse_git_branch_spec.2.1 (some 1) mainStdout (by decide)⟩

/-- Claim C9: `folder_name` is the last path component of `cwd`, and the
whole `cwd` when none exists (e.g. the root path). -/
theorem folder_name_spec :
    (∀ (ctx : PaneContext) (nm : String), fileName ctx.cwd = some nm →
      ctx.folder_name = nm) ∧
    (∀ ctx : PaneContext, fileName ctx.cwd = none → ctx.folder_name = ctx.cwd) ∧
    (PaneContext.mk "/home/user/project" (some "main")).folder_name = "project" ∧
    (PaneContext.mk "/" none).folder_name = "/" := by
  refine ⟨?_, ?_, by decide, by decide⟩
  · intro ctx nm h
    simp [PaneContext.folder_name, h]
  · intro ctx h
    simp [PaneContext.folder_name, h]

/-- Witness for C9 at the two-component path `/a/b`. -/
theorem folder_name_spec_witness :
    fileName "/a/b" = some "b" ∧ (PaneContext.mk "/a/b" none).folder_name = "b" :=
  ⟨by decide, folder_name_spec.1 (PaneContext.mk "/a/b" none) "b" (by decide)⟩

/-- Claim C3: the extractor trims, rejects empty titles, and otherwise
applies the `": "` rule, then the whole-title rule, then the `":"` rule,
first match winning; `"foo: /a"` gives `/a`, and empty or
whitespace-only titles give nothing. -/
theorem extract_cwd_from_title_spec :
    (∀ title : String, extract_cwd_from_title title = extractCwdSpec title) ∧
    extract_cwd_from_title "foo: /a" = some "/a" ∧
    extract_cwd_from_title "" = none ∧
    extract_cwd_from_title "   " = none := by
  refine ⟨?_, by decide, by decide, by decide⟩
  intro title
  unfold extract_cwd_from_title extractCwdSpec ruleColonSpace ruleWholeTitle ruleColon
  by_cases ht : rustTrim title.data = []
  · simp [ht]
  · simp only [ht, if_false]
    cases h1 : afterLast [':', ' '] (rustTrim title.data) with
    | some rest =>
      by_cases hs : startsWithPath (rustTrim rest)
      · simp [hs, Option.orElse]
      · by_cases hw : startsWithPath (rustTrim title.data)
        · simp [hs, hw, Option.orElse]
        · cases h2 : afterLast [':'] (rustTrim title.data) with
          | some rest2 =>
            by_cases hs2 : startsWithPath (rustTrim rest2) <;>
              simp [hs, hw, hs2, Option.orElse]
          | none => simp [hs, hw, Option.orElse]
    | none =>
      by_cases hw : startsWithPath (rustTrim title.data)
      · simp [hw, Option.orElse]
      · cases h2 : afterLast [':'] (rustTrim title.data) with
        | some rest2 =>
          by_cases hs2 : startsWithPath (rustTrim rest2) <;>
            simp [hw, hs2, Option.orElse]
        | none => simp [hw, Option.orElse]

/-- Counterexample to C1 as stated: the session tracks `/a`, a result
from this system arrives tagged with the different path `/b`, and the
handler nevertheless issues a rename (to `"b:main"`). -/
theorem stale_result_renames_cex :
    staleState.current_cwd = some "/a" ∧
    staleContext.lookup "source" = some "namey" ∧
    staleContext.lookup "path" = some "/b" ∧
    ("/b" : String) ≠ "/a" ∧
    (handle_command_result staleState (some 0) mainStdout staleContext).2 =
      some (0, "b:main") := by
  exact ⟨rfl, rfl, rfl, by decide, by decide⟩

/-- Claim C1 (amended): handling a command result never modifies the
recorded state (in particular the recorded current tab name); but the
path tag is not compared against the tracked path — for any result from
this system carrying a path tag, a rename to the name computed from that
tag is issued whenever it differs from the recorded current tab name,
even when the tag differs from the tracked path. -/
theorem handle_command_result_spec (s : State) (exit_code : Option Int)
    (stdout : List Nat) (context : List (String × String)) :
    (handle_command_result s exit_code stdout context).1 = s ∧
    (∀ path, context.lookup "source" = some "namey" → context.lookup "path" = some path →
      (handle_command_result s exit_code stdout context).2 =
        (if format_tab_name (PaneContext.mk path (result_branch exit_code stdout)).folder_name
              (result_branch exit_code stdout) s.config ≠ s.current_tab_name
         then some (s.current_tab_index % 4294967296,
            format_tab_name (PaneContext.mk path (result_branch exit_code stdout)).folder_name
              (result_branch exit_code stdout) s.config)
         else none)) := by
  constructor
  · unfold handle_command_result
    split
    · split
      · rfl
      · dsimp only
        split <;> rfl
    · rfl
  · intro path hsrc hpath
    have hoc : is_our_command context = true := by
      simp [is_our_command, hsrc]
    simp only [handle_command_result, hoc, if_true, hpath]
    split <;> rfl

/-- Witness for amended C1 at the stale-path inputs. -/
theorem handle_command_result_spec_witness :
    (handle_command_result staleState (some 0) mainStdout staleContext).1 = staleState ∧
    (handle_command_result staleState (some 0) mainStdout staleContext).2 =
      (if format_tab_name
            (PaneContext.mk "/b" (result_branch (some 0) mainStdout)).folder_name
            (result_branch (some 0) mainStdout) staleState.config ≠
            staleState.current_tab_name
       then some (staleState.current_tab_index % 4294967296,
          format_tab_name (PaneContext.mk "/b" (result_branch (some 0) mainStdout)).folder_name
            (result_branch (some 0) mainStdout) staleState.config)
       else none) :=
  ⟨(handle_command_result_spec staleState (some 0) mainStdout staleContext).1,
    (handle_command_result_spec staleState (some 0) mainStdout staleContext).2 "/b" rfl rfl⟩

end Namey
